import Mathlib

/-!
Verification of the chimedb_cfm reservation core (chimedb/cfm/api.py and
chimedb/cfm/tags.py) against its natural-language specification.

The persistence layer is modelled as an explicit record of table contents
(lists of rows); peewee queries become list scans, and peewee or database
exceptions become an explicit error type threaded through Except.  Stateful
operations return the (possibly updated) database next to their Except
result, because a raised exception leaves previously committed rows in
place.
-/

namespace Cfm

/-- A row of the external ArchiveFile table: primary key, the name of the
owning acquisition (ArchiveAcq.name, reachable through the acq foreign key),
the file name, and the size in bytes. -/
structure AFile where
  id : Nat
  acq : String
  name : String
  size_b : Nat
deriving DecidableEq, Repr

/-- A row of the external ArchiveFileCopy table.  The source stores the
has-flag as a string column compared against the literal "Y". -/
structure FileCopy where
  file : Nat
  node : Nat
  has_file : String
deriving DecidableEq, Repr

/-- A row of the FileReservation table from tags.py: file, node and tag are
non-nullable foreign keys. -/
structure Reservation where
  file : Nat
  node : Nat
  tag : Nat
deriving DecidableEq, Repr

/-- A row of the external ArchiveFileCopyRequest table, with exactly the
fields FileManager.reserve passes to get_or_create. -/
structure CopyRequest where
  file : Nat
  group_to : Nat
  node_from : Option Nat
  nice : Int
  cancelled : Bool
  completed : Bool
  n_requests : Nat
  timestamp : Nat
deriving DecidableEq, Repr

/-- A pathlib.PurePosixPath value: whether the path is absolute, and its
non-anchor components ("parts"). -/
structure PyPath where
  absolute : Bool
  parts : List String
deriving DecidableEq, Repr

/-- A StorageNode row, keeping only the fields the core reads: primary key,
the root path, and the group foreign key. -/
structure SNode where
  id : Nat
  root : PyPath
  group : Nat
deriving DecidableEq, Repr

/-- The database state visible to the core: the ArchiveFile table (joined
with acquisition names), the copy table, the reservation ledger and the
transfer-request table. -/
structure DB where
  files : List AFile
  copies : List FileCopy
  reservations : List Reservation
  requests : List CopyRequest
deriving DecidableEq, Repr

/-- The mutable configuration of a FileManager instance: destination node,
source list, and the optional active tag (None until use_tag is called). -/
structure Manager where
  node : SNode
  sources : List SNode
  tag : Option Nat
deriving Repr

/-- The errors the modelled operations can raise.  invalidPath and the
two-element complaint are the ValueError cases of path handling; attrError
models an AttributeError raised when the source dereferences a name that
does not exist on the peewee module; integrityError models the database
rejecting an INSERT with a NULL value in a non-nullable column; missingTag
is the ValueError "no tag in use" raised by the autotags helper; notFound
is the ValueError "No such file: acq/name" that the source intends to raise
for an unresolvable pair. -/
inductive Err where
  | invalidPath (msg : String)
  | notFound (acq fname : String)
  | attrError (msg : String)
  | integrityError
  | missingTag
deriving DecidableEq, Repr

/-- The four-flag per-file state of the CopyState enum in api.py, as a
record of independent booleans. -/
structure CopyState where
  present : Bool
  available : Bool
  reserved : Bool
  recalled : Bool
deriving DecidableEq, Repr

/-- Split a character list on slashes, producing the raw (possibly empty)
segments. -/
def splitSegs : List Char → List (List Char)
  | [] => [[]]
  | c :: rest =>
      match splitSegs rest, c with
      | segs, '/' => [] :: segs
      | [], ch => [[ch]]
      | s0 :: srest, ch => (ch :: s0) :: srest

/-- Python str to pathlib.Path: absolute when it starts with a slash;
parts are the slash-separated components with empty and single-dot
components dropped, as pathlib normalisation does. -/
def pathOfString (s : String) : PyPath :=
  { absolute := match s.data with
      | '/' :: _ => true
      | _ => false,
    parts := ((splitSegs s.data).map (fun cs => String.mk cs)).filter
      (fun seg => seg != "" && seg != ".") }

/-- pathlib relative_to: succeeds when the argument root (anchor and parts)
is a prefix of the path, returning the relative remainder; otherwise raises
ValueError. -/
def PyPath.relativeTo (p root : PyPath) : Except Err PyPath :=
  if p.absolute == root.absolute && root.parts.isPrefixOf p.parts then
    Except.ok { absolute := false, parts := p.parts.drop root.parts.length }
  else
    Except.error (Err.invalidPath "path is not in the subpath of the node root")

/-- A file specification, the four accepted input shapes of FileSpec in
api.py.  A user-supplied 2-tuple and the tuple produced from a path by
taking its parts share the tup constructor, as both reach the same branch
of the cascade. -/
inductive FileSpec where
  | str (s : String)
  | path (p : PyPath)
  | tup (elems : List String)
  | file (id : Nat)
deriving DecidableEq, Repr

/-- The tuple branch of FileManager._fixup_filespec: a tuple of any length
other than two raises ValueError; a 2-tuple is looked up in ArchiveFile
joined with ArchiveAcq.  When the lookup finds no row, the source runs
"except pw.NotFoundError:"; the peewee module has no attribute named
NotFoundError (the lookup raises DoesNotExist), so evaluating the handler
itself raises AttributeError and the ValueError "No such file" on the next
line is unreachable. -/
def resolveTuple (db : DB) (elems : List String) : Except Err Nat :=
  match elems with
  | [a, b] =>
      match db.files.find? (fun af => af.acq == a && af.name == b) with
      | some af => Except.ok af.id
      | none => Except.error (Err.attrError "module peewee has no attribute NotFoundError")
  | _ => Except.error (Err.invalidPath "Expected two path elements")

/-- One item of FileManager._fixup_filespec, the str to path to tuple to
ArchiveFile cascade.  NOTE, translated faithfully from the source: the test
"if file.is_absolute:" does not call the method, and a bound method object
is always truthy, so relative_to against the node root runs for every path,
relative paths included. -/
def fixupOne (db : DB) (m : Manager) (spec : FileSpec) : Except Err Nat :=
  match spec with
  | FileSpec.file i => Except.ok i
  | FileSpec.tup elems => resolveTuple db elems
  | FileSpec.path p =>
      (p.relativeTo m.node.root).bind (fun p2 => resolveTuple db p2.parts)
  | FileSpec.str s =>
      ((pathOfString s).relativeTo m.node.root).bind (fun p2 => resolveTuple db p2.parts)

/-- FileManager._fixup_filespec over a list: items are converted in input
order and the first failure aborts the whole call. -/
def fixup_filespec (db : DB) (m : Manager) (specs : List FileSpec) : Except Err (List Nat) :=
  specs.mapM (fixupOne db m)

/-- Is a copy row with the has-flag set present for this file on the
destination node?  (The PRESENT check of FileManager._filecopy_state.) -/
def filePresent (db : DB) (m : Manager) (f : Nat) : Bool :=
  db.copies.any (fun c => c.file == f && c.node == m.node.id && c.has_file == "Y")

/-- The AVAILABLE check of FileManager._filecopy_state: the first copy row
with the has-flag set whose node lies in the source list, if any, giving
the chosen source node. -/
def findSource (db : DB) (m : Manager) (f : Nat) : Option Nat :=
  (db.copies.find? (fun c =>
      c.file == f && m.sources.any (fun s => s.id == c.node) && c.has_file == "Y")).map
    (fun c => c.node)

/-- The RESERVED check of FileManager._filecopy_state: a reservation row
for this file, the active tag and the destination node.  When no tag is in
use the peewee comparison "tag == None" becomes tag IS NULL, which matches
no row of the non-nullable column. -/
def fileReserved (db : DB) (m : Manager) (f : Nat) : Bool :=
  match m.tag with
  | none => false
  | some t => db.reservations.any (fun r => r.file == f && r.tag == t && r.node == m.node.id)

/-- FileManager._filecopy_state: the three queried flags (RECALLED starts
clear) plus the chosen source node. -/
def filecopy_state (db : DB) (m : Manager) (f : Nat) : CopyState × Option Nat :=
  let source := findSource db m f
  ({ present := filePresent db m f,
     available := source.isSome,
     reserved := fileReserved db m f,
     recalled := false }, source)

/-- FileReservation.create(file=..., node=..., tag=...): inserting with the
active tag None puts NULL in a non-nullable foreign-key column and the
database rejects the row; otherwise the row is appended. -/
def createReservation (db : DB) (f node : Nat) (tag : Option Nat) : DB × Except Err Unit :=
  match tag with
  | none => (db, Except.error Err.integrityError)
  | some t =>
      ({ db with reservations := db.reservations ++ [{ file := f, node := node, tag := t }] },
       Except.ok ())

/-- ArchiveFileCopyRequest.get_or_create keyed on every passed field:
returns the updated table and whether a new row was created. -/
def get_or_create (db : DB) (req : CopyRequest) : DB × Bool :=
  if db.requests.any (fun r => r == req) then (db, false)
  else ({ db with requests := db.requests ++ [req] }, true)

/-- The transfer request FileManager.reserve builds: destination group,
chosen source node, and neutral defaults. -/
def mkRequest (m : Manager) (f : Nat) (source : Option Nat) : CopyRequest :=
  { file := f, group_to := m.node.group, node_from := source,
    nice := 0, cancelled := false, completed := false, n_requests := 0, timestamp := 0 }

/-- Python dict insertion on the states dictionary of reserve: overwrite the
value under an existing key, else append a new entry. -/
def insertState (states : List (Nat × CopyState)) (f : Nat) (st : CopyState) :
    List (Nat × CopyState) :=
  if states.any (fun p => p.1 == f) then
    states.map (fun p => if p.1 == f then (f, st) else p)
  else states ++ [(f, st)]

/-- The per-file loop of FileManager.reserve, translated statement by
statement: compute the state, clear the overall result when the file is not
PRESENT, and unless check-only holds create the missing reservation (this is
where a None active tag blows up) and the recall request, marking RECALLED
when a new request row was created.  The database component survives an
error, as committed rows do when the exception propagates. -/
def reserveLoop (m : Manager) (db : DB) (files : List Nat) (check_only : Bool)
    (result : Bool) (states : List (Nat × CopyState)) :
    DB × Except Err (Bool × List (Nat × CopyState)) :=
  match files with
  | [] => (db, Except.ok (result, states))
  | f :: rest =>
      let sc := filecopy_state db m f
      let st := sc.1
      let source := sc.2
      let result1 := if result && !st.present then false else result
      if check_only then
        reserveLoop m db rest check_only result1 (insertState states f st)
      else
        match (if !st.reserved then createReservation db f m.node.id m.tag
               else (db, Except.ok ())) with
        | (db1, Except.error e) => (db1, Except.error e)
        | (db1, Except.ok _) =>
            let step2 :=
              if st.available && !st.present then
                let gc := get_or_create db1 (mkRequest m f source)
                (gc.1, if gc.2 then { st with recalled := true } else st)
              else (db1, st)
            reserveLoop m step2.1 rest check_only result1 (insertState states f step2.2)

/-- FileManager.reserve: normalize the specifications, run the per-file
loop starting from an overall result of true, and return the boolean.  The
verbose branch of the source only prints a table derived from the states
dictionary and performs no further database work, so it is not modelled. -/
def reserve (db : DB) (m : Manager) (specs : List FileSpec) (check_only : Bool) :
    DB × Except Err Bool :=
  match fixup_filespec db m specs with
  | Except.error e => (db, Except.error e)
  | Except.ok files =>
      match reserveLoop m db files check_only true [] with
      | (db1, Except.error e) => (db1, Except.error e)
      | (db1, Except.ok rs) => (db1, Except.ok rs.1)

/-- FileManager.is_reserved: literally reserve(file, check_only=True) on the
single specification. -/
def is_reserved (db : DB) (m : Manager) (spec : FileSpec) : DB × Except Err Bool :=
  reserve db m [spec] true

/-- FileManager._autotags: an explicit non-empty tag list wins; otherwise
the active tag; otherwise ValueError "no tag in use". -/
def autotags (m : Manager) (tags : List Nat) : Except Err (List Nat) :=
  match tags with
  | [] =>
      match m.tag with
      | none => Except.error Err.missingTag
      | some t => Except.ok [t]
  | _ => Except.ok tags

/-- FileManager.all_reserved_files: ArchiveFile joined against
FileReservation filtered on the destination node and the resolved tag list.
The select carries no DISTINCT, so the query yields one ArchiveFile row per
matching reservation row. -/
def all_reserved_files (db : DB) (m : Manager) (tags : List Nat) : Except Err (List Nat) :=
  (autotags m tags).map (fun tl =>
    (db.reservations.filter (fun r => r.node == m.node.id && tl.contains r.tag)).map
      (fun r => r.file))

/-- FileManager.reserved_size: after tag resolution the source evaluates
ArchiveFile(pw.SUM(ArchiveFile.size_b)); the peewee module has no attribute
SUM (the aggregate lives at pw.fn.SUM), so the attribute access raises
AttributeError before any query is built, for every input that passes tag
resolution. -/
def reserved_size (db : DB) (m : Manager) (tags : List Nat) : Except Err Int :=
  (autotags m tags).bind (fun _tl =>
    Except.error (Err.attrError "module peewee has no attribute SUM"))

/-- The node test of FileReservation.reserved_in_node in tags.py compares
the node column against the StorageNode class itself instead of the node
argument; peewee renders a model class as its table name, giving SQL that
compares the integer node id with the identifier storagenode.  Under the
double-quote fallback of the SQLite backend the repository tests run on,
that identifier is read as the string literal, which never equals a node
id, so the condition holds for no row.  (Under MySQL the whole query
errors.)  Either way the node argument is ignored. -/
def nodeMatchesStorageNodeClass (_n : Nat) : Bool := false

/-- FileReservation.reserved_in_node from tags.py: select the tag column of
reservation rows filtered on the file and on the broken node condition
above; the node argument is never consulted. -/
def reserved_in_node (db : DB) (file : Nat) (_node : Nat) : List Nat :=
  (db.reservations.filter (fun r => r.file == file && nodeMatchesStorageNodeClass r.node)).map
    (fun r => r.tag)

/-- Is a reservation row for this file, tag and node in the ledger?  Used to
phrase the side-effect obligations of reserve. -/
def hasReservation (db : DB) (f node t : Nat) : Bool :=
  db.reservations.any (fun r => r.file == f && r.tag == t && r.node == node)

/-! Helper lemmas about the embedded operations. -/

theorem result_update (r p : Bool) : (if r && !p then false else r) = (r && p) := by
  cases r <;> cases p <;> rfl

theorem result_update2 (r p : Bool) : ((!r || p) && r) = (r && p) := by
  cases r <;> cases p <;> rfl

theorem filePresent_congr {db db' : DB} (m : Manager) (h : db'.copies = db.copies) :
    filePresent db' m = filePresent db m := by
  funext f
  unfold filePresent
  rw [h]

theorem fileReserved_eq {m : Manager} {t : Nat} (ht : m.tag = some t) (db : DB) (f : Nat) :
    fileReserved db m f = hasReservation db f m.node.id t := by
  unfold fileReserved hasReservation
  rw [ht]

theorem hasReservation_mono {db db' : DB} (h : db.reservations <+: db'.reservations)
    {f n t : Nat} (hr : hasReservation db f n t = true) : hasReservation db' f n t = true := by
  unfold hasReservation at hr ⊢
  rcases List.any_eq_true.mp hr with ⟨r, hmem, hp⟩
  exact List.any_eq_true.mpr ⟨r, h.subset hmem, hp⟩

theorem get_or_create_copies (db : DB) (req : CopyRequest) :
    (get_or_create db req).1.copies = db.copies := by
  unfold get_or_create
  split <;> rfl

theorem get_or_create_files (db : DB) (req : CopyRequest) :
    (get_or_create db req).1.files = db.files := by
  unfold get_or_create
  split <;> rfl

theorem get_or_create_reservations (db : DB) (req : CopyRequest) :
    (get_or_create db req).1.reservations = db.reservations := by
  unfold get_or_create
  split <;> rfl

theorem get_or_create_requests (db : DB) (req : CopyRequest) :
    db.requests <+: (get_or_create db req).1.requests := by
  unfold get_or_create
  split
  case isTrue => exact List.prefix_refl _
  case isFalse => exact ⟨[req], rfl⟩

theorem fixup_files_map (db : DB) (m : Manager) (files : List Nat) :
    fixup_filespec db m (files.map FileSpec.file) = Except.ok files := by
  induction files with
  | nil => rfl
  | cons f rest ih =>
      unfold fixup_filespec at ih ⊢
      simp only [List.map_cons, List.mapM_cons, ih, fixupOne]
      rfl

/-- Check-only runs of the reserve loop leave the database untouched and
return the conjunction of the overall result with PRESENT over each file. -/
theorem reserveLoop_check (m : Manager) :
    ∀ (files : List Nat) (db : DB) (result : Bool) (states : List (Nat × CopyState)),
      ∃ states',
        reserveLoop m db files true result states =
          (db, Except.ok (result && files.all (filePresent db m), states')) := by
  intro files
  induction files with
  | nil =>
      intro db result states
      exact ⟨states, by simp [reserveLoop]⟩
  | cons f rest ih =>
      intro db result states
      obtain ⟨s', hs'⟩ := ih db (result && filePresent db m f)
        (insertState states f (filecopy_state db m f).1)
      refine ⟨s', ?_⟩
      simp only [reserveLoop, filecopy_state, if_true, result_update] at hs' ⊢
      rw [hs', List.all_cons, Bool.and_assoc]

/-- Non-check-only runs with an active tag in use: the loop succeeds, the
result is the conjunction with PRESENT over each file (computed against the
pre-call copy table, which the loop never modifies), the ledger and request
tables only grow, and every processed file ends up reserved under the
active tag, whether or not some earlier file already made the result
false. -/
theorem reserveLoop_go {m : Manager} {t : Nat} (ht : m.tag = some t) :
    ∀ (files : List Nat) (db : DB) (result : Bool) (states : List (Nat × CopyState)),
      ∃ db' states',
        reserveLoop m db files false result states =
          (db', Except.ok (result && files.all (filePresent db m), states')) ∧
        db'.copies = db.copies ∧
        db'.files = db.files ∧
        db.reservations <+: db'.reservations ∧
        db.requests <+: db'.requests ∧
        ∀ f ∈ files, hasReservation db' f m.node.id t = true := by
  intro files
  induction files with
  | nil =>
      intro db result states
      refine ⟨db, states, ?_, rfl, rfl, List.prefix_refl _, List.prefix_refl _, ?_⟩
      · simp [reserveLoop]
      · intro g hg
        exact absurd hg (List.not_mem_nil g)
  | cons f rest ih =>
      intro db result states
      -- the database after the (possible) reservation insert for the head file
      set dbA := (if fileReserved db m f then db
        else { db with
                reservations := db.reservations ++ [{ file := f, node := m.node.id, tag := t }] })
        with hdbA
      -- the database and created-flag after the (possible) recall request
      set dbB := (if (findSource db m f).isSome && !(filePresent db m f) then
          (get_or_create dbA (mkRequest m f (findSource db m f))).1
        else dbA) with hdbB
      set created := (if (findSource db m f).isSome && !(filePresent db m f) then
          (get_or_create dbA (mkRequest m f (findSource db m f))).2
        else false) with hcreated
      have hAc : dbA.copies = db.copies := by rw [hdbA]; split <;> rfl
      have hAf : dbA.files = db.files := by rw [hdbA]; split <;> rfl
      have hAreq : dbA.requests = db.requests := by rw [hdbA]; split <;> rfl
      have hApre : db.reservations <+: dbA.reservations := by
        rw [hdbA]; split
        · exact List.prefix_refl _
        · exact ⟨[{ file := f, node := m.node.id, tag := t }], rfl⟩
      have hAhas : hasReservation dbA f m.node.id t = true := by
        rw [hdbA]
        cases hres : fileReserved db m f with
        | false => simp [hasReservation]
        | true =>
            rw [if_pos rfl]
            rw [← fileReserved_eq ht db f]
            exact hres
      have hBc : dbB.copies = dbA.copies := by
        rw [hdbB]; split
        · exact get_or_create_copies dbA _
        · rfl
      have hBf : dbB.files = dbA.files := by
        rw [hdbB]; split
        · exact get_or_create_files dbA _
        · rfl
      have hBres : dbB.reservations = dbA.reservations := by
        rw [hdbB]; split
        · exact get_or_create_reservations dbA _
        · rfl
      have hBreq : dbA.requests <+: dbB.requests := by
        rw [hdbB]; split
        · exact get_or_create_requests dbA _
        · exact List.prefix_refl _
      -- one unfolding step of the loop
      have hstep : reserveLoop m db (f :: rest) false result states =
          reserveLoop m dbB rest false (result && filePresent db m f)
            (insertState states f
              (if created then { (filecopy_state db m f).1 with recalled := true }
               else (filecopy_state db m f).1)) := by
        cases hres : fileReserved db m f <;>
          cases hgrd : (findSource db m f).isSome && !(filePresent db m f) <;>
            simp [reserveLoop, filecopy_state, ht, createReservation, result_update,
              result_update2, hdbA, hdbB, hcreated, hres, hgrd]
      -- apply the induction hypothesis from the stepped database
      obtain ⟨db', s', hloop, hc, hfl, hpre, hreq, hall⟩ :=
        ih dbB (result && filePresent db m f)
          (insertState states f
            (if created then { (filecopy_state db m f).1 with recalled := true }
             else (filecopy_state db m f).1))
      have hBc' : dbB.copies = db.copies := hBc.trans hAc
      refine ⟨db', s', ?_, hc.trans hBc', hfl.trans (hBf.trans hAf),
        hApre.trans (hBres ▸ hpre), (hAreq ▸ hBreq).trans hreq, ?_⟩
      · rw [hstep, hloop, filePresent_congr m hBc', List.all_cons, Bool.and_assoc]
      · intro g hg
        rcases List.mem_cons.mp hg with hg | hg
        · subst hg
          exact hasReservation_mono (hBres ▸ hpre) hAhas
        · exact hall g hg

theorem fileReserved_none {m : Manager} (ht : m.tag = none) (db : DB) (f : Nat) :
    fileReserved db m f = false := by
  unfold fileReserved
  rw [ht]

/-- With no active tag, a non-check-only run of the loop dies on the first
file at the reservation insert (the tag column is non-nullable), leaving the
database exactly as it was; an empty file list returns successfully. -/
theorem reserveLoop_notag {m : Manager} (ht : m.tag = none)
    (files : List Nat) (db : DB) (result : Bool) (states : List (Nat × CopyState)) :
    (reserveLoop m db files false result states).1 = db ∧
    (files ≠ [] →
      (reserveLoop m db files false result states).2 = Except.error Err.integrityError) := by
  cases files with
  | nil =>
      refine ⟨rfl, ?_⟩
      intro h
      exact absurd rfl h
  | cons f rest =>
      have hstep : reserveLoop m db (f :: rest) false result states =
          (db, Except.error Err.integrityError) := by
        simp [reserveLoop, filecopy_state, fileReserved_none ht, ht, createReservation]
      rw [hstep]
      exact ⟨rfl, fun _ => rfl⟩

theorem findSource_congr {db db' : DB} (m : Manager) (h : db'.copies = db.copies) :
    findSource db' m = findSource db m := by
  funext f
  unfold findSource
  rw [h]

/-- File-specification normalization reads only the file table and the node
root, never the reservation ledger. -/
theorem fixupOne_reservations_congr (db : DB) (rs : List Reservation) (m : Manager)
    (spec : FileSpec) :
    fixupOne { db with reservations := rs } m spec = fixupOne db m spec := by
  cases spec <;> rfl

theorem fixup_reservations_congr (db : DB) (rs : List Reservation) (m : Manager)
    (specs : List FileSpec) :
    fixup_filespec { db with reservations := rs } m specs = fixup_filespec db m specs := by
  unfold fixup_filespec
  have h : fixupOne { db with reservations := rs } m = fixupOne db m :=
    funext (fun spec => fixupOne_reservations_congr db rs m spec)
  rw [h]

/-! Concrete fixtures, mirroring the test data of tests/conftest.py: a
destination node (id 1, root /test, group 1), three source nodes (ids 2-4,
group 2), five files in acquisition acqpath (file0 on the destination,
file1 on the destination and src1, file2 only on src1, file3 on all three
sources, file4 nowhere), two tags (1 and 2) and a pre-existing reservation
of file0 on the destination under tag 1. -/

def nodeD : SNode := { id := 1, root := { absolute := true, parts := ["test"] }, group := 1 }

def src1 : SNode := { id := 2, root := { absolute := true, parts := ["src1"] }, group := 2 }

def src2 : SNode := { id := 3, root := { absolute := true, parts := ["src2"] }, group := 2 }

def src3 : SNode := { id := 4, root := { absolute := true, parts := ["src3"] }, group := 2 }

def db0 : DB :=
  { files := [{ id := 0, acq := "acqpath", name := "file0", size_b := 123456789 },
              { id := 1, acq := "acqpath", name := "file1", size_b := 123456789 },
              { id := 2, acq := "acqpath", name := "file2", size_b := 123456789 },
              { id := 3, acq := "acqpath", name := "file3", size_b := 123456789 },
              { id := 4, acq := "acqpath", name := "file4", size_b := 123456789 }],
    copies := [{ file := 0, node := 1, has_file := "Y" },
               { file := 1, node := 1, has_file := "Y" },
               { file := 1, node := 2, has_file := "Y" },
               { file := 2, node := 2, has_file := "Y" },
               { file := 3, node := 2, has_file := "Y" },
               { file := 3, node := 3, has_file := "Y" },
               { file := 3, node := 4, has_file := "Y" }],
    reservations := [{ file := 0, node := 1, tag := 1 }],
    requests := [] }

def m0 : Manager := { node := nodeD, sources := [src1, src2, src3], tag := some 1 }

def mNoTag : Manager := { node := nodeD, sources := [src1, src2, src3], tag := none }

/-- A ledger with one file reserved under two different tags on the same
node, used to exhibit the duplicate output of all_reserved_files. -/
def db7 : DB :=
  { files := [], copies := [],
    reservations := [{ file := 5, node := 1, tag := 1 }, { file := 5, node := 1, tag := 2 }],
    requests := [] }

def m7 : Manager := { node := nodeD, sources := [], tag := some 1 }

/-- A ledger with one reservation of file 7 under tag 3 on node 1, on which
reserved_in_node fails to report the reserving tag. -/
def db9 : DB :=
  { files := [], copies := [],
    reservations := [{ file := 7, node := 1, tag := 3 }],
    requests := [] }

/-! The claims. -/

/-- C1: with an active tag in use, reserve over a list of valid file
specifications returns true exactly when every file in the list is PRESENT
on the destination node (a copy row with the has-flag set), the overall
result being the conjunction of per-file PRESENT flags; there is no early
exit: even after the result has become false, every remaining file is still
processed for its side effects, so in a non-check-only call every file of
the list ends the call reserved under the active tag. -/
theorem C1_reserve_iff_all_present (db : DB) (m : Manager) (t : Nat) (files : List Nat)
    (ck : Bool) (ht : m.tag = some t) :
    (reserve db m (files.map FileSpec.file) ck).2 =
      Except.ok (files.all (filePresent db m)) ∧
    (ck = false → ∀ f ∈ files,
      hasReservation (reserve db m (files.map FileSpec.file) ck).1 f m.node.id t = true) := by
  cases ck with
  | true =>
      obtain ⟨s', hchk⟩ := reserveLoop_check m files db true []
      have hr : reserve db m (files.map FileSpec.file) true =
          (db, Except.ok (files.all (filePresent db m))) := by
        simp only [reserve, fixup_files_map, hchk, Bool.true_and]
      rw [hr]
      exact ⟨rfl, fun h => Bool.noConfusion h⟩
  | false =>
      obtain ⟨db', s', hloop, hc, hfl, hpre, hreq, hall⟩ := reserveLoop_go ht files db true []
      have hr : reserve db m (files.map FileSpec.file) false =
          (db', Except.ok (files.all (filePresent db m))) := by
        simp only [reserve, fixup_files_map, hloop, Bool.true_and]
      rw [hr]
      exact ⟨rfl, fun _ => hall⟩

/-- Witness for C1 at the fixture data: file 0 is present on the
destination but file 2 is not, so reserve returns false, and both end up
reserved under tag 1. -/
theorem C1_reserve_iff_all_present_w :
    (reserve db0 m0 ([0, 2].map FileSpec.file) false).2 =
      Except.ok ([0, 2].all (filePresent db0 m0)) ∧
    (false = false → ∀ f ∈ [0, 2],
      hasReservation (reserve db0 m0 ([0, 2].map FileSpec.file) false).1 f m0.node.id 1 = true) :=
  C1_reserve_iff_all_present db0 m0 1 [0, 2] false rfl

/-- C2: with an active tag in use, a check-only reserve call leaves the
database exactly as it found it (no reservation rows, no transfer
requests), and returns the same boolean a non-check-only call on the same
arguments returns. -/
theorem C2_check_only_pure (db : DB) (m : Manager) (specs : List FileSpec) (t : Nat)
    (ht : m.tag = some t) :
    (reserve db m specs true).1 = db ∧
    (reserve db m specs true).2 = (reserve db m specs false).2 := by
  cases hfix : fixup_filespec db m specs with
  | error e =>
      constructor
      · simp only [reserve, hfix]
      · simp only [reserve, hfix]
  | ok files =>
      obtain ⟨s', hchk⟩ := reserveLoop_check m files db true []
      obtain ⟨db', s2, hgo, _, _, _, _, _⟩ := reserveLoop_go ht files db true []
      constructor
      · simp only [reserve, hfix, hchk]
      · simp only [reserve, hfix, hchk, hgo]

/-- Witness for C2 on the fixture data with a file that is not on the
destination node. -/
theorem C2_check_only_pure_w :
    (reserve db0 m0 [FileSpec.file 2] true).1 = db0 ∧
    (reserve db0 m0 [FileSpec.file 2] true).2 = (reserve db0 m0 [FileSpec.file 2] false).2 :=
  C2_check_only_pure db0 m0 [FileSpec.file 2] 1 rfl

/-- C3: for a file that is not PRESENT on the destination but AVAILABLE on
exactly one source node, with no prior reservation under the active tag and
no prior matching transfer request, the first non-check-only reserve call
appends exactly one reservation row and exactly one transfer request; an
immediately repeated identical call leaves the database unchanged (and
again returns false). -/
theorem C3_reserve_idempotent (db : DB) (m : Manager) (t f s : Nat)
    (ht : m.tag = some t)
    (hnp : filePresent db m f = false)
    (hsrc : findSource db m f = some s)
    (huniq : ∀ c ∈ db.copies,
      (c.file == f && m.sources.any (fun sn => sn.id == c.node) && c.has_file == "Y") = true →
      c.node = s)
    (hres0 : hasReservation db f m.node.id t = false)
    (hreq0 : db.requests.any (fun r => r == mkRequest m f (some s)) = false) :
    (reserve db m [FileSpec.file f] false).1.reservations =
      db.reservations ++ [{ file := f, node := m.node.id, tag := t }] ∧
    (reserve db m [FileSpec.file f] false).1.requests =
      db.requests ++ [mkRequest m f (some s)] ∧
    (reserve db m [FileSpec.file f] false).2 = Except.ok false ∧
    reserve (reserve db m [FileSpec.file f] false).1 m [FileSpec.file f] false =
      ((reserve db m [FileSpec.file f] false).1, Except.ok false) := by
  have hfr : fileReserved db m f = false := by
    rw [fileReserved_eq ht]
    exact hres0
  have hfix : fixup_filespec db m [FileSpec.file f] = Except.ok [f] := fixup_files_map db m [f]
  have h1 : reserve db m [FileSpec.file f] false =
      ({ db with
          reservations := db.reservations ++ [{ file := f, node := m.node.id, tag := t }],
          requests := db.requests ++ [mkRequest m f (some s)] }, Except.ok false) := by
    simp [reserve, hfix, reserveLoop, filecopy_state, hfr, hsrc, hnp, ht,
      createReservation, get_or_create, hreq0]
  rw [h1]
  refine ⟨rfl, rfl, rfl, ?_⟩
  -- the repeated call: the file is now reserved and the request exists
  have hp2 : filePresent
      { db with
          reservations := db.reservations ++ [{ file := f, node := m.node.id, tag := t }],
          requests := db.requests ++ [mkRequest m f (some s)] } m f = false := hnp
  have hsrc2 : findSource
      { db with
          reservations := db.reservations ++ [{ file := f, node := m.node.id, tag := t }],
          requests := db.requests ++ [mkRequest m f (some s)] } m f = some s := hsrc
  have hfr2 : fileReserved
      { db with
          reservations := db.reservations ++ [{ file := f, node := m.node.id, tag := t }],
          requests := db.requests ++ [mkRequest m f (some s)] } m f = true := by
    rw [fileReserved_eq ht]
    simp [hasReservation]
  have hreq2 : ((db.requests ++ [mkRequest m f (some s)]).any
      (fun r => r == mkRequest m f (some s))) = true := by
    simp
  have hfix2 : fixup_filespec
      { db with
          reservations := db.reservations ++ [{ file := f, node := m.node.id, tag := t }],
          requests := db.requests ++ [mkRequest m f (some s)] } m [FileSpec.file f] =
      Except.ok [f] := fixup_files_map _ m [f]
  simp [reserve, hfix2, reserveLoop, filecopy_state, hfr2, hsrc2, hp2,
    get_or_create, hreq2]

/-- Witness for C3 on the fixture data: file 2 lives only on source node 2,
is not on the destination, is not yet reserved under tag 1, and no matching
transfer request exists. -/
theorem C3_reserve_idempotent_w :
    (reserve db0 m0 [FileSpec.file 2] false).1.reservations =
      db0.reservations ++ [{ file := 2, node := m0.node.id, tag := 1 }] ∧
    (reserve db0 m0 [FileSpec.file 2] false).1.requests =
      db0.requests ++ [mkRequest m0 2 (some 2)] ∧
    (reserve db0 m0 [FileSpec.file 2] false).2 = Except.ok false ∧
    reserve (reserve db0 m0 [FileSpec.file 2] false).1 m0 [FileSpec.file 2] false =
      ((reserve db0 m0 [FileSpec.file 2] false).1, Except.ok false) :=
  C3_reserve_idempotent db0 m0 1 2 2 rfl rfl rfl (by decide) rfl rfl

/-- C4: reserved_size with no tags supplied and no active tag fails with
the MissingTag condition, as the claim says; but with an active tag set and
zero matching files it does not return 0: the source evaluates
ArchiveFile(pw.SUM(ArchiveFile.size_b)), and the peewee module has no
attribute SUM (nor is ArchiveFile(...) a select), so the call raises
AttributeError instead of returning an integer. -/
theorem C4_reserved_size_code_bug :
    reserved_size db0 mNoTag [] = Except.error Err.missingTag ∧
    reserved_size db0 m0 [] = Except.error (Err.attrError "module peewee has no attribute SUM") ∧
    reserved_size db0 m0 [] ≠ Except.ok 0 := by
  refine ⟨rfl, rfl, ?_⟩
  intro h
  exact Except.noConfusion h

/-- C5: a relative two-segment path is NOT interpreted as a
(collection, file) pair: the source tests "if file.is_absolute:" without
calling the method, so the always-truthy bound method routes every path
through relative_to(node.root), and a relative path under an absolute node
root raises the InvalidPath error instead of resolving.  The same file given
as the explicit pair, or as the absolute path under the node root, resolves
to file identity 2. -/
theorem C5_relative_path_code_bug :
    fixup_filespec db0 m0 [FileSpec.str "acqpath/file2"] =
      Except.error (Err.invalidPath "path is not in the subpath of the node root") ∧
    fixup_filespec db0 m0 [FileSpec.tup ["acqpath", "file2"]] = Except.ok [2] ∧
    fixup_filespec db0 m0 [FileSpec.str "/test/acqpath/file2"] = Except.ok [2] :=
  ⟨rfl, rfl, rfl⟩

/-- C6: an unresolvable (collection, file) pair does fail atomically on the
first invalid entry in list order (the second, valid, entry is not
processed), but not with a NotFound condition naming both segments: the
lookup raises DoesNotExist, and the handler "except pw.NotFoundError:"
itself raises AttributeError because peewee has no attribute NotFoundError,
so the intended ValueError naming the segments is unreachable. -/
theorem C6_pair_not_found_code_bug :
    fixup_filespec db0 m0
        [FileSpec.tup ["no_such_acq", "no_such_file"], FileSpec.tup ["acqpath", "file2"]] =
      Except.error (Err.attrError "module peewee has no attribute NotFoundError") ∧
    ∀ a b, fixup_filespec db0 m0
        [FileSpec.tup ["no_such_acq", "no_such_file"], FileSpec.tup ["acqpath", "file2"]] ≠
      Except.error (Err.notFound a b) := by
  refine ⟨rfl, ?_⟩
  intro a b h
  rw [show fixup_filespec db0 m0
        [FileSpec.tup ["no_such_acq", "no_such_file"], FileSpec.tup ["acqpath", "file2"]] =
      Except.error (Err.attrError "module peewee has no attribute NotFoundError") from rfl] at h
  exact Err.noConfusion (Except.error.inj h)

/-- C7 counterexample: on a ledger where file 5 is reserved on the
destination node under both tag 1 and tag 2, all_reserved_files for the tag
list [1, 2] returns the file twice — the select has no DISTINCT, so the
claim that no file appears more than once is false. -/
theorem C7_counterexample :
    all_reserved_files db7 m7 [1, 2] = Except.ok [5, 5] ∧ ¬ List.Nodup [5, 5] := by
  exact ⟨rfl, by decide⟩

/-- C7 amended: all_reserved_files returns one entry per reservation row on
the destination node whose tag lies in the given (non-empty) tag list — a
file reserved under k of the given tags appears k times — and the empty
list, not an error, when no reservation matches. -/
theorem C7_all_reserved_files_multiplicity (db : DB) (m : Manager) (tags : List Nat)
    (htags : tags ≠ []) :
    ∃ l, all_reserved_files db m tags = Except.ok l ∧
      (∀ f, l.count f =
        (db.reservations.filter
          (fun r => r.node == m.node.id && tags.contains r.tag && r.file == f)).length) ∧
      ((∀ r ∈ db.reservations, ¬((r.node == m.node.id && tags.contains r.tag) = true)) →
        l = []) := by
  have hauto : autotags m tags = Except.ok tags := by
    cases tags with
    | nil => exact absurd rfl htags
    | cons a tl => rfl
  refine ⟨(db.reservations.filter
      (fun r => r.node == m.node.id && tags.contains r.tag)).map (fun r => r.file),
    ?_, ?_, ?_⟩
  · simp only [all_reserved_files, hauto]
    rfl
  · intro f
    rw [List.count_eq_countP, List.countP_map, List.countP_filter,
      ← List.countP_eq_length_filter]
    refine List.countP_congr ?_
    intro r _
    simp only [Function.comp_apply, Bool.and_eq_true]
    tauto
  · intro hnone
    rw [List.filter_eq_nil_iff.mpr hnone]
    rfl

/-- Witness for C7 amended at the duplicate-tag fixture. -/
theorem C7_all_reserved_files_multiplicity_w :
    ∃ l, all_reserved_files db7 m7 [1, 2] = Except.ok l ∧
      (∀ f, l.count f =
        (db7.reservations.filter
          (fun r => r.node == m7.node.id && [1, 2].contains r.tag && r.file == f)).length) ∧
      ((∀ r ∈ db7.reservations, ¬((r.node == m7.node.id && [1, 2].contains r.tag) = true)) →
        l = []) :=
  C7_all_reserved_files_multiplicity db7 m7 [1, 2] (by decide)

/-- C8: a Manager whose active tag is unset never creates a reservation row
or a transfer request through reserve — whatever the file list and mode,
the database after the call equals the database before it — and a
non-check-only call on a non-empty normalized file list fails synchronously
(the reservation insert for the first file puts NULL into the non-nullable
tag column and the database rejects it). -/
theorem C8_no_tag_no_side_effects (db : DB) (m : Manager) (specs : List FileSpec) (ck : Bool)
    (ht : m.tag = none) :
    (reserve db m specs ck).1 = db ∧
    (∀ files, fixup_filespec db m specs = Except.ok files → files ≠ [] → ck = false →
      (reserve db m specs ck).2 = Except.error Err.integrityError) := by
  cases hfix : fixup_filespec db m specs with
  | error e =>
      refine ⟨by simp only [reserve, hfix], ?_⟩
      intro files hf
      exact Except.noConfusion hf
  | ok files =>
      cases ck with
      | true =>
          obtain ⟨s', hchk⟩ := reserveLoop_check m files db true []
          refine ⟨by simp only [reserve, hfix, hchk], ?_⟩
          intro files' _ _ h
          exact Bool.noConfusion h
      | false =>
          obtain ⟨h1, h2⟩ := reserveLoop_notag ht files db true []
          constructor
          · rcases hloop : reserveLoop m db files false true [] with ⟨db1, r⟩
            have hdb1 : db1 = db := by rw [hloop] at h1; exact h1
            subst hdb1
            cases r with
            | error e => simp only [reserve, hfix, hloop]
            | ok v => simp only [reserve, hfix, hloop]
          · intro files' hf hne _
            have hfiles : files' = files := (Except.ok.inj hf).symm
            subst hfiles
            have h3 := h2 hne
            rcases hloop : reserveLoop m db files' false true [] with ⟨db1, r⟩
            rw [hloop] at h3
            cases r with
            | error e2 =>
                simp only [reserve, hfix, hloop]
                simpa using h3
            | ok v => exact absurd h3 (by intro hcon; exact Except.noConfusion hcon)

/-- Witness for C8: with no active tag, reserving file 2 changes nothing
and fails with the integrity error. -/
theorem C8_no_tag_no_side_effects_w :
    (reserve db0 mNoTag [FileSpec.file 2] false).1 = db0 ∧
    (∀ files, fixup_filespec db0 mNoTag [FileSpec.file 2] = Except.ok files → files ≠ [] →
      false = false →
      (reserve db0 mNoTag [FileSpec.file 2] false).2 = Except.error Err.integrityError) :=
  C8_no_tag_no_side_effects db0 mNoTag [FileSpec.file 2] false rfl

/-- C9: the derived query of the Reservation Ledger, reserved_in_node, does
not return the tags reserving file F on node N: its where clause compares
the node column to the StorageNode class instead of the node argument, a
condition no row satisfies, so on a ledger where file 7 is reserved on node
1 under tag 3 the query for (file 7, node 1) returns the empty list rather
than [3].  (The empty-ledger half of the claim holds: with no reservations
the result is empty without failing.) -/
theorem C9_reserved_in_node_code_bug :
    reserved_in_node db9 7 1 = [] ∧ ([] : List Nat) ≠ [3] ∧
    reserved_in_node { db9 with reservations := [] } 7 1 = [] := by
  refine ⟨rfl, ?_, rfl⟩
  intro h
  exact List.noConfusion h

/-- C10: is_reserved(file) is literally reserve([file], check_only=true):
it returns the PRESENT flag of the file on the destination node — whether a
copy row with the has-flag set exists — and its value does not depend on
the reservation ledger at all. -/
theorem C10_is_reserved_refines_reserve (db : DB) (m : Manager) (spec : FileSpec) (f : Nat)
    (rs1 rs2 : List Reservation) :
    is_reserved db m spec = reserve db m [spec] true ∧
    (fixup_filespec db m [spec] = Except.ok [f] →
      (is_reserved db m spec).2 = Except.ok (filePresent db m f)) ∧
    ((is_reserved { db with reservations := rs1 } m spec).2 =
      (is_reserved { db with reservations := rs2 } m spec).2) := by
  refine ⟨rfl, ?_, ?_⟩
  · intro hfix
    obtain ⟨s', hchk⟩ := reserveLoop_check m [f] db true []
    simp only [is_reserved, reserve, hfix, hchk, Bool.true_and, List.all_cons, List.all_nil,
      Bool.and_true]
  · have hfix1 : fixup_filespec { db with reservations := rs1 } m [spec] =
        fixup_filespec db m [spec] := fixup_reservations_congr db rs1 m [spec]
    have hfix2 : fixup_filespec { db with reservations := rs2 } m [spec] =
        fixup_filespec db m [spec] := fixup_reservations_congr db rs2 m [spec]
    cases hfix : fixup_filespec db m [spec] with
    | error e => simp only [is_reserved, reserve, hfix1, hfix2, hfix]
    | ok files =>
        obtain ⟨sA, hA⟩ := reserveLoop_check m files { db with reservations := rs1 } true []
        obtain ⟨sB, hB⟩ := reserveLoop_check m files { db with reservations := rs2 } true []
        have hpA : filePresent { db with reservations := rs1 } m = filePresent db m :=
          filePresent_congr m rfl
        have hpB : filePresent { db with reservations := rs2 } m = filePresent db m :=
          filePresent_congr m rfl
        rw [hpA] at hA
        rw [hpB] at hB
        simp only [is_reserved, reserve, hfix1, hfix2, hfix, hA, hB]

/-- Witness for C10: file 2 is not on the destination node, so is_reserved
on the fixture data reports false whatever the ledger contains. -/
theorem C10_is_reserved_refines_reserve_w :
    is_reserved db0 m0 (FileSpec.file 2) = reserve db0 m0 [FileSpec.file 2] true ∧
    (fixup_filespec db0 m0 [FileSpec.file 2] = Except.ok [2] →
      (is_reserved db0 m0 (FileSpec.file 2)).2 = Except.ok (filePresent db0 m0 2)) ∧
    ((is_reserved { db0 with reservations := [] } m0 (FileSpec.file 2)).2 =
      (is_reserved
        { db0 with reservations := [{ file := 2, node := 1, tag := 1 }] } m0
        (FileSpec.file 2)).2) :=
  C10_is_reserved_refines_reserve db0 m0 (FileSpec.file 2) 2 []
    [{ file := 2, node := 1, tag := 1 }]

end Cfm
